import Mathlib

/-!
Verification development for the devtoolsweb excerpt: the memory-panel
action creators in `src/client/memory/actions/snapshot.js` and the
animation-inspector controller in the second source file.

The JavaScript generators are embedded shallowly: each action creator is a
Lean function from its inputs (the store snapshots it observes at each
suspension point, and the results of the remote calls it awaits) to the
list of externally visible events it produces, in order, together with its
return value.  Host-supplied helpers that are not part of this repository
excerpt (`censusIsUpToDate`, `breakdownEquals` from `../utils`) are kept as
explicit parameters, since this code treats them as black boxes.
-/

namespace DevToolsWeb
namespace Memory

/-- Heap-snapshot file path, as returned by `front.saveHeapSnapshot`. -/
abbrev Path := String

/-- An error thrown by a remote call (opaque to this code). -/
abbrev HeapError := String

/-- Creation time, as returned by `heapWorker.getCreationTime`. -/
abbrev CreationTime := Nat

/-- A census report, as returned by `heapWorker.takeCensus` (opaque). -/
abbrev Report := Nat

/-- A census breakdown configuration (opaque: only compared, via the
`breakdownEquals` parameter). -/
abbrev Breakdown := String

/-- The census filter string; `none` models JS `null`/`undefined`. -/
abbrev Filter := Option String

/-- The snapshot-state enum from `../constants` (`snapshotState`), with the
members this file mentions. -/
inductive SnapState where
  | SAVING
  | SAVED
  | IMPORTING
  | READING
  | READ
  | SAVING_CENSUS
  | SAVED_CENSUS
  | ERROR
deriving DecidableEq, Repr

/-- A stored census (opaque: only inspected through the `censusIsUpToDate`
parameter). -/
abbrev Census := Nat

/-- A snapshot record: an identifier, a state enum, and optional
path/creationTime/census fields, plus the `selected` flag read by
`refreshSelectedCensus`. -/
structure Snapshot where
  id : Nat
  state : SnapState
  path : Option Path
  creationTime : Option CreationTime
  census : Option Census
  selected : Bool
deriving DecidableEq, Repr

/-- The slice of the redux store state this file reads. -/
structure StoreState where
  snapshots : List Snapshot
  inverted : Bool
  breakdown : Breakdown
  filter : Filter
  diffing : Bool
deriving DecidableEq, Repr

/-- Modelled from the spec: `getSnapshot` from `../utils` (not in this
excerpt) returns the snapshot record with the given identifier from the
store's snapshot list ("snapshot records with an identifier"). -/
def getSnapshot (s : StoreState) (id : Nat) : Option Snapshot :=
  s.snapshots.find? (fun sn => sn.id = id)

/-- The redux actions dispatched by `snapshot.js`, with the payload fields
each one carries in the source. -/
inductive MemAction where
  | TOGGLE_DIFFING
  | TAKE_SNAPSHOT_START (snapshot : Snapshot)
  | SELECT_SNAPSHOT (id : Nat)
  | SNAPSHOT_ERROR (id : Nat) (error : HeapError)
  | TAKE_SNAPSHOT_END (id : Nat) (path : Path)
  | READ_SNAPSHOT_START (id : Nat)
  | READ_SNAPSHOT_END (id : Nat) (creationTime : CreationTime)
  | TAKE_CENSUS_START (id : Nat) (inverted : Bool) (filter : Filter)
      (breakdown : Breakdown)
  | TAKE_CENSUS_END (id : Nat) (breakdown : Breakdown) (inverted : Bool)
      (filter : Filter) (report : Report)
deriving DecidableEq, Repr

/-- The options object built for `heapWorker.takeCensus`. -/
structure CensusOpts where
  asInvertedTreeNode : Bool
  filter : Filter
deriving DecidableEq, Repr

/-- The remote calls issued by `snapshot.js`. -/
inductive MemCall where
  | saveHeapSnapshot
  | readHeapSnapshot (path : Option Path)
  | getCreationTime (path : Option Path)
  | workerTakeCensus (path : Option Path) (breakdown : Breakdown)
      (opts : CensusOpts)
deriving DecidableEq, Repr

/-- The generator tasks that `snapshot.js` dispatches. -/
inductive MemTask where
  | takeSnapshot
  | readSnapshot
  | takeCensus
  | refreshSelectedCensus
deriving DecidableEq, Repr

/-- Externally visible events of a run of an action creator, in program
order: dispatched actions, dispatched sub-tasks, the begin (`call`),
resolution (`ret`) and rejection (`threw`) of each awaited remote call,
`reportException` logging, and a JS runtime error (failed `assert` or a
property access on `undefined`). -/
inductive MemEvent where
  | dispatch (a : MemAction)
  | taskDispatch (t : MemTask)
  | call (c : MemCall)
  | ret (c : MemCall)
  | threw (c : MemCall) (e : HeapError)
  | reportException (source : String) (e : HeapError)
  | jsError
deriving DecidableEq, Repr

/-- The actions dispatched in a trace, in order. -/
def dispatched : List MemEvent → List MemAction
  | [] => []
  | .dispatch a :: rest => a :: dispatched rest
  | _ :: rest => dispatched rest

/-- The remote calls begun in a trace, in order. -/
def callsOf : List MemEvent → List MemCall
  | [] => []
  | .call c :: rest => c :: callsOf rest
  | _ :: rest => callsOf rest

/-- Replay a trace against a host-supplied reducer: only `dispatch` events
touch the store. -/
def applyEvents (reduce : StoreState → MemAction → StoreState)
    (s : StoreState) : List MemEvent → StoreState
  | [] => s
  | .dispatch a :: rest => applyEvents reduce (reduce s a) rest
  | _ :: rest => applyEvents reduce s rest

/-- `takeSnapshot` (snapshot.js lines 57-80).  Inputs: the store state at
entry, the fresh record produced by `createSnapshot()`, and the settlement
of `front.saveHeapSnapshot()`.  Output: the event trace and the generator's
return value (the new id, or `none` for JS `null`). -/
def takeSnapshotRun (s : StoreState) (fresh : Snapshot)
    (save : Except HeapError Path) : List MemEvent × Option Nat :=
  let d := if s.diffing then [MemEvent.dispatch .TOGGLE_DIFFING] else []
  let pre := d ++
    [MemEvent.dispatch (.TAKE_SNAPSHOT_START fresh),
     MemEvent.dispatch (.SELECT_SNAPSHOT fresh.id),
     MemEvent.call .saveHeapSnapshot]
  match save with
  | .error e =>
      (pre ++
        [MemEvent.threw .saveHeapSnapshot e,
         MemEvent.reportException "takeSnapshot" e,
         MemEvent.dispatch (.SNAPSHOT_ERROR fresh.id e)], none)
  | .ok path =>
      (pre ++
        [MemEvent.ret .saveHeapSnapshot,
         MemEvent.dispatch (.TAKE_SNAPSHOT_END fresh.id path)],
       some fresh.id)

/-- `readSnapshot` (snapshot.js lines 89-109).  Inputs: the store state at
entry and the settlements of `heapWorker.readHeapSnapshot` and
`heapWorker.getCreationTime`. -/
def readSnapshotRun (s : StoreState) (id : Nat)
    (readRes : Except HeapError Unit)
    (ctRes : Except HeapError CreationTime) : List MemEvent :=
  match getSnapshot s id with
  | none => [MemEvent.jsError]
  | some snapshot =>
    if snapshot.state = .SAVED ∨ snapshot.state = .IMPORTING then
      let c1 := MemCall.readHeapSnapshot snapshot.path
      let pre := [MemEvent.dispatch (.READ_SNAPSHOT_START id),
                  MemEvent.call c1]
      match readRes with
      | .error e =>
          pre ++ [MemEvent.threw c1 e,
                  MemEvent.reportException "readSnapshot" e,
                  MemEvent.dispatch (.SNAPSHOT_ERROR id e)]
      | .ok _ =>
        let c2 := MemCall.getCreationTime snapshot.path
        let pre2 := pre ++ [MemEvent.ret c1, MemEvent.call c2]
        match ctRes with
        | .error e =>
            pre2 ++ [MemEvent.threw c2 e,
                     MemEvent.reportException "readSnapshot" e,
                     MemEvent.dispatch (.SNAPSHOT_ERROR id e)]
        | .ok t =>
            pre2 ++ [MemEvent.ret c2,
                     MemEvent.dispatch (.READ_SNAPSHOT_END id t)]
    else [MemEvent.jsError]

/-- The outcome of a `takeCensus` run. `completed i ...` records the index
of the final loop iteration together with the `inverted`, `filter`,
`breakdown` and `report` values carried by the `TAKE_CENSUS_END` action. -/
inductive CensusOutcome where
  | upToDate
  | errored
  | completed (i : Nat) (inverted : Bool) (filter : Filter)
      (breakdown : Breakdown) (report : Report)
  | fuelOut
  | precondFailed
deriving DecidableEq, Repr

/-- JS `filter || null`: the empty string is falsy. -/
def filterOrNull : Filter → Filter
  | none => none
  | some s => if s = "" then none else some s

/-- The do/while loop of `takeCensus` (snapshot.js lines 138-164).
`states n` is the store state observed after `n` awaited worker calls
(`states 0` is the entry state, also used by the first iteration, which
begins before any await); `census n` is the settlement of the worker call
of iteration `n`; `beq` is `breakdownEquals` from `../utils`, kept
abstract.  `fuel` bounds the number of iterations modelled; running out of
fuel yields `CensusOutcome.fuelOut`. -/
def takeCensusLoop (states : Nat → StoreState)
    (census : Nat → Except HeapError Report)
    (beq : Breakdown → Breakdown → Bool) (id : Nat) (path : Option Path) :
    Nat → Nat → List MemEvent × CensusOutcome
  | _, 0 => ([], .fuelOut)
  | i, fuel + 1 =>
    let s := states i
    let inverted := s.inverted
    let breakdown := s.breakdown
    let filter := s.filter
    let opts : CensusOpts := ⟨inverted, filterOrNull filter⟩
    let c := MemCall.workerTakeCensus path breakdown opts
    let evs := [MemEvent.dispatch
                  (.TAKE_CENSUS_START id inverted filter breakdown),
                MemEvent.call c]
    match census i with
    | .error e =>
        (evs ++ [MemEvent.threw c e,
                 MemEvent.reportException "takeCensus" e,
                 MemEvent.dispatch (.SNAPSHOT_ERROR id e)], .errored)
    | .ok report =>
      let evs := evs ++ [MemEvent.ret c]
      let s2 := states (i + 1)
      if inverted ≠ s2.inverted ∨ filter ≠ s2.filter ∨
          ¬ beq breakdown s2.breakdown then
        let r := takeCensusLoop states census beq id path (i + 1) fuel
        (evs ++ r.1, r.2)
      else
        (evs ++ [MemEvent.dispatch
                   (.TAKE_CENSUS_END id breakdown inverted filter report)],
         .completed i inverted filter breakdown report)

/-- `takeCensus` (snapshot.js lines 119-175).  `cut` is `censusIsUpToDate`
from `../utils`, kept abstract. -/
def takeCensusRun (cut : Bool → Filter → Breakdown → Option Census → Bool)
    (beq : Breakdown → Breakdown → Bool) (states : Nat → StoreState)
    (census : Nat → Except HeapError Report) (id : Nat) (fuel : Nat) :
    List MemEvent × CensusOutcome :=
  match getSnapshot (states 0) id with
  | none => ([MemEvent.jsError], .precondFailed)
  | some snapshot =>
    if snapshot.state = .READ ∨ snapshot.state = .SAVED_CENSUS then
      if cut (states 0).inverted (states 0).filter (states 0).breakdown
          snapshot.census then
        ([], .upToDate)
      else
        takeCensusLoop states census beq id snapshot.path 0 fuel
    else ([MemEvent.jsError], .precondFailed)

/-- `takeSnapshotAndCensus` (snapshot.js lines 19-31).  `sA` is the store
state while `takeSnapshot` runs, `sB` the state while `readSnapshot` runs,
and `sC` the state oracle from the point where `readSnapshot` has
completed (`sC 0` is read by the `states.READ` check, and `sC` is the
oracle of the dispatched `takeCensus`). -/
def takeSnapshotAndCensusRun (sA : StoreState) (fresh : Snapshot)
    (save : Except HeapError Path) (sB : StoreState)
    (readRes : Except HeapError Unit)
    (ctRes : Except HeapError CreationTime) (sC : Nat → StoreState)
    (cut : Bool → Filter → Breakdown → Option Census → Bool)
    (beq : Breakdown → Breakdown → Bool)
    (census : Nat → Except HeapError Report) (fuel : Nat) :
    List MemEvent :=
  let r1 := takeSnapshotRun sA fresh save
  let t1 := MemEvent.taskDispatch .takeSnapshot :: r1.1
  match r1.2 with
  | none => t1
  | some id =>
    let t2 := t1 ++
      (MemEvent.taskDispatch .readSnapshot ::
        readSnapshotRun sB id readRes ctRes)
    match getSnapshot (sC 0) id with
    | none => t2 ++ [MemEvent.jsError]
    | some sn =>
      if sn.state = .READ then
        t2 ++ (MemEvent.taskDispatch .takeCensus ::
          (takeCensusRun cut beq sC census id fuel).1)
      else t2

/-- `refreshSelectedCensus` (snapshot.js lines 183-197). -/
def refreshSelectedCensusRun
    (cut : Bool → Filter → Breakdown → Option Census → Bool)
    (beq : Breakdown → Breakdown → Bool) (states : Nat → StoreState)
    (census : Nat → Except HeapError Report) (fuel : Nat) :
    List MemEvent :=
  match (states 0).snapshots.find? (fun sn => sn.selected) with
  | some sn =>
    if sn.state = .SAVED_CENSUS then
      MemEvent.taskDispatch .takeCensus ::
        (takeCensusRun cut beq states census sn.id fuel).1
    else []
  | none => []

/-- `selectSnapshotAndRefresh` (snapshot.js lines 40-49).  `s0` is the
entry state; `statesR` is the state oracle of the dispatched
`refreshSelectedCensus` (the synchronous `SELECT_SNAPSHOT` dispatch
changes the store before it runs). -/
def selectSnapshotAndRefreshRun (s0 : StoreState)
    (cut : Bool → Filter → Breakdown → Option Census → Bool)
    (beq : Breakdown → Breakdown → Bool) (statesR : Nat → StoreState)
    (census : Nat → Except HeapError Report) (id : Nat) (fuel : Nat) :
    List MemEvent :=
  (if s0.diffing then [MemEvent.dispatch .TOGGLE_DIFFING] else []) ++
  (MemEvent.dispatch (.SELECT_SNAPSHOT id) ::
    MemEvent.taskDispatch .refreshSelectedCensus ::
      refreshSelectedCensusRun cut beq statesR census fuel)

/-- The worker call issued by loop iteration `j` of `takeCensus`, built
from the store state observed at the top of that iteration. -/
def censusCallAt (states : Nat → StoreState) (path : Option Path)
    (j : Nat) : MemCall :=
  .workerTakeCensus path (states j).breakdown
    ⟨(states j).inverted, filterOrNull (states j).filter⟩

/-- Is this action a `TAKE_SNAPSHOT_END`? -/
def isTakeSnapshotEnd : MemAction → Bool
  | .TAKE_SNAPSHOT_END _ _ => true
  | _ => false

/-- Is this action a `READ_SNAPSHOT_END`? -/
def isReadSnapshotEnd : MemAction → Bool
  | .READ_SNAPSHOT_END _ _ => true
  | _ => false

/-- Is this action a `TAKE_CENSUS_END`? -/
def isTakeCensusEnd : MemAction → Bool
  | .TAKE_CENSUS_END _ _ _ _ _ => true
  | _ => false

end Memory

namespace Anim

/-- A remote `AnimationPlayerFront` handle, identified by its actor.  The
`documentCurrentTime` of its cached `state` is a non-negative timeline
time in milliseconds; in JS it is falsy exactly when it is `0` (or
missing, modelled as `0`). -/
structure PlayerFront where
  id : Nat
  documentCurrentTime : Nat
deriving DecidableEq, Repr

/-- The remote calls issued by the animation controller. -/
inductive AnimCall where
  | toggleAll
  | toggleSeveral (players : List PlayerFront) (shouldPause : Bool)
  | pause (p : PlayerFront)
  | play (p : PlayerFront)
  | setCurrentTime (p : PlayerFront) (time : Nat)
  | setCurrentTimes (players : List PlayerFront) (time : Nat)
      (shouldPause : Bool)
  | setPlaybackRate (p : PlayerFront) (rate : Nat)
  | setPlaybackRates (players : List PlayerFront) (rate : Nat)
  | getAnimationPlayersForNode
  | stopAnimationPlayerUpdates
  | release (p : PlayerFront)
deriving DecidableEq, Repr

/-- Externally visible events of a controller method: the begin (`call`)
and the awaited resolution (`ret`) of each remote call, plus
`PLAYERS_UPDATED_EVENT` emissions. -/
inductive AnimEvent where
  | call (c : AnimCall)
  | ret (c : AnimCall)
  | emitPlayersUpdated
deriving DecidableEq, Repr

/-- An awaited remote call: begun, then resolved before anything else. -/
def awaited (c : AnimCall) : List AnimEvent := [.call c, .ret c]

/-- A trace is strictly sequential when it consists of matched
begin/resolution pairs: every remote call is awaited to completion before
the next one begins. -/
def strictlySequential : List AnimEvent → Bool
  | [] => true
  | .call c :: .ret c2 :: rest => c = c2 && strictlySequential rest
  | _ => false

/-- The fronts released in a trace, in order. -/
def releasedOf : List AnimEvent → List PlayerFront
  | [] => []
  | .call (.release p) :: rest => p :: releasedOf rest
  | _ :: rest => releasedOf rest

/-- `toggleCurrentAnimations` (second source file, lines 335-350): with
the `toggleSeveral` trait one front call handles all players, otherwise
the players are paused/played one by one, each awaited. -/
def toggleCurrentAnimationsRun (hasToggleSeveral : Bool)
    (players : List PlayerFront) (shouldPause : Bool) : List AnimEvent :=
  if hasToggleSeveral then awaited (.toggleSeveral players shouldPause)
  else players.flatMap (fun p =>
    if shouldPause then awaited (.pause p) else awaited (.play p))

/-- `setCurrentTimeAll` (lines 358-372): with the `setCurrentTimes` trait
one front call handles all players, otherwise each player is (optionally)
paused and then has its current time set, one by one, each awaited. -/
def setCurrentTimeAllRun (hasSetCurrentTimes : Bool)
    (players : List PlayerFront) (time : Nat) (shouldPause : Bool) :
    List AnimEvent :=
  if hasSetCurrentTimes then awaited (.setCurrentTimes players time shouldPause)
  else players.flatMap (fun a =>
    (if shouldPause then awaited (.pause a) else []) ++
      awaited (.setCurrentTime a time))

/-- `setPlaybackRateAll` (lines 379-389). -/
def setPlaybackRateAllRun (hasSetPlaybackRates hasSetPlaybackRate : Bool)
    (players : List PlayerFront) (rate : Nat) : List AnimEvent :=
  if hasSetPlaybackRates then awaited (.setPlaybackRates players rate)
  else if hasSetPlaybackRate then
    players.flatMap (fun a => awaited (.setPlaybackRate a rate))
  else []

/-- `destroyAnimationPlayers` (lines 449-461): optionally stop server
updates, release every held front one by one, and empty the list. -/
def destroyAnimationPlayersRun (hasMutationEvents : Bool)
    (players : List PlayerFront) : List AnimEvent × List PlayerFront :=
  ((if hasMutationEvents then awaited .stopAnimationPlayerUpdates else []) ++
     players.flatMap (fun front => awaited (.release front)), [])

/-- `refreshAnimationPlayers` (lines 397-409): first destroy (release) the
previous fronts, then replace the list with the fronts the front returns
for the new node (`newPlayers` is the resolution of
`getAnimationPlayersForNode`). -/
def refreshAnimationPlayersRun (hasMutationEvents : Bool)
    (players : List PlayerFront) (newPlayers : List PlayerFront) :
    List AnimEvent × List PlayerFront :=
  let d := destroyAnimationPlayersRun hasMutationEvents players
  (d.1 ++ awaited .getAnimationPlayersForNode, newPlayers)

/-- A `mutations` event change entry. -/
inductive ChangeType where
  | added
  | removed
deriving DecidableEq, Repr

/-- One entry of the `changes` argument of `onAnimationMutations`. -/
structure AnimChange where
  type : ChangeType
  player : PlayerFront
deriving DecidableEq, Repr

/-- JS `list.splice(list.indexOf(p), 1)`: removes the first occurrence of
`p` when present; when `indexOf` yields `-1`, `splice(-1, 1)` removes the
LAST element instead (and nothing from an empty list). -/
def spliceAtIndexOf (l : List PlayerFront) (p : PlayerFront) :
    List PlayerFront :=
  if p ∈ l then l.erase p else l.dropLast

/-- The body of the `for` loop of `onAnimationMutations` (lines 414-424)
for one change: an `added` change pushes the player; a `removed` change
awaits `player.release()` and then splices at `indexOf(player)`. -/
def mutationStep (players : List PlayerFront) (ch : AnimChange) :
    List AnimEvent × List PlayerFront :=
  let p1 := if ch.type = .added then players ++ [ch.player] else players
  if ch.type = .removed then
    (awaited (.release ch.player), spliceAtIndexOf p1 ch.player)
  else ([], p1)

/-- `onAnimationMutations` (lines 411-428): process each change in order,
then emit `PLAYERS_UPDATED_EVENT`. -/
def onAnimationMutationsRun (changes : List AnimChange)
    (players : List PlayerFront) : List AnimEvent × List PlayerFront :=
  match changes with
  | [] => ([AnimEvent.emitPlayersUpdated], players)
  | ch :: rest =>
    let s := mutationStep players ch
    let r := onAnimationMutationsRun rest s.2
    (s.1 ++ r.1, r.2)

/-- The `documentCurrentTime` getter (lines 438-447): returns `none`
(JS `false`) as soon as some player's cached `state.documentCurrentTime`
is falsy, else folds `Math.max` over the values starting from `0`. -/
def documentCurrentTimeAux (time : Nat) :
    List PlayerFront → Option Nat
  | [] => some time
  | p :: rest =>
    if p.documentCurrentTime = 0 then none
    else documentCurrentTimeAux (max time p.documentCurrentTime) rest

/-- `AnimationsController.documentCurrentTime`. -/
def documentCurrentTime (players : List PlayerFront) : Option Nat :=
  documentCurrentTimeAux 0 players

/-- The sources that can invoke the controller's handlers. -/
inductive EventSource where
  | selectionNewNodeFront
  | sidebarSelect
  | toolboxSelect
  | frontMutations
  | timerPoll
deriving DecidableEq, Repr

/-- The event listeners registered by `startListeners` (lines 264-270):
`selection "new-node-front"`, `sidebar "select"`, `toolbox "select"`. -/
def startListenersRegistrations : List EventSource :=
  [.selectionNewNodeFront, .sidebarSelect, .toolboxSelect]

/-- The one further listener the controller ever registers: the front's
`"mutations"` event, hooked inside `refreshAnimationPlayers`
(lines 405-408). -/
def mutationListenerRegistration : List EventSource := [.frontMutations]

/-- Every listener registration the controller performs. -/
def allListenerRegistrations : List EventSource :=
  startListenersRegistrations ++ mutationListenerRegistration

/-- The call sites of `refreshAnimationPlayers` in the controller file:
only `onNewNodeFront` (line 311) calls it. -/
def refreshAnimationPlayersCallers : List String := ["onNewNodeFront"]

/-- The call sites of `onNewNodeFront`: controller startup (line 236), the
`"new-node-front"` selection listener, and `onPanelVisibilityChange`
(line 289). -/
def onNewNodeFrontCallers : List String :=
  ["controllerStartup", "newNodeFrontListener", "onPanelVisibilityChange"]

/-- The call sites of `onPanelVisibilityChange`: the sidebar and toolbox
`"select"` listeners. -/
def onPanelVisibilityChangeCallers : List String :=
  ["sidebarSelectListener", "toolboxSelectListener"]

/-- The remote-call events of a trace (UI event emissions dropped). -/
def remoteEvents (t : List AnimEvent) : List AnimEvent :=
  t.filter (fun e => match e with
    | .emitPlayersUpdated => false
    | _ => true)

/-- The claim's reading of `onAnimationMutations` as a list transformer:
append the player of each `added` change, remove the player of each
`removed` change. -/
def specApplyChanges (players : List PlayerFront) :
    List AnimChange → List PlayerFront
  | [] => players
  | ch :: rest =>
    match ch.type with
    | .added => specApplyChanges (players ++ [ch.player]) rest
    | .removed => specApplyChanges (players.erase ch.player) rest

/-- The players of the `removed` changes, in order. -/
def removedPlayers : List AnimChange → List PlayerFront
  | [] => []
  | ch :: rest =>
    (if ch.type = .removed then [ch.player] else []) ++ removedPlayers rest

/-- A change list is valid for a player list when the player of every
`removed` change is present in the list at the point the change is
processed. -/
def validChanges (players : List PlayerFront) : List AnimChange → Bool
  | [] => true
  | ch :: rest =>
    (ch.type = .added || decide (ch.player ∈ players)) &&
      validChanges (mutationStep players ch).2 rest

end Anim
end DevToolsWeb

namespace DevToolsWeb
namespace Anim

theorem documentCurrentTimeAux_none_iff :
    ∀ (ps : List PlayerFront) (t : Nat),
      documentCurrentTimeAux t ps = none ↔
        ∃ p ∈ ps, p.documentCurrentTime = 0 := by
  intro ps
  induction ps with
  | nil => intro t; simp [documentCurrentTimeAux]
  | cons p ps ih =>
    intro t
    by_cases h : p.documentCurrentTime = 0
    · simp [documentCurrentTimeAux, h]
    · simp [documentCurrentTimeAux, h, ih]

theorem documentCurrentTimeAux_some :
    ∀ (ps : List PlayerFront) (t : Nat),
      (∀ p ∈ ps, p.documentCurrentTime ≠ 0) →
      documentCurrentTimeAux t ps =
        some ((ps.map fun p => p.documentCurrentTime).foldl max t) := by
  intro ps
  induction ps with
  | nil => intro t _; simp [documentCurrentTimeAux]
  | cons p ps ih =>
    intro t h
    have hp : p.documentCurrentTime ≠ 0 := h p (by simp)
    have hr := ih (max t p.documentCurrentTime)
      (fun q hq => h q (by simp [hq]))
    simp [documentCurrentTimeAux, hp, hr]

theorem le_foldl_max :
    ∀ (l : List Nat) (t : Nat), t ≤ l.foldl max t ∧ ∀ x ∈ l, x ≤ l.foldl max t := by
  intro l
  induction l with
  | nil => intro t; simp
  | cons a l ih =>
    intro t
    have h := ih (max t a)
    refine ⟨le_trans (le_max_left t a) h.1, ?_⟩
    intro x hx
    rcases List.mem_cons.mp hx with rfl | hx
    · exact le_trans (le_max_right t x) h.1
    · exact h.2 x hx

/-- C10: the `documentCurrentTime` getter returns `false` (here `none`)
exactly when some player's cached `state.documentCurrentTime` is falsy;
otherwise it returns the fold of `max` over the players' values seeded
with `0` (which bounds every player's value), and on an empty player list
it returns the number `0`. -/
theorem documentCurrentTime_spec (players : List PlayerFront) :
    (documentCurrentTime players = none ↔
      ∃ p ∈ players, p.documentCurrentTime = 0) ∧
    ((∀ p ∈ players, p.documentCurrentTime ≠ 0) →
      documentCurrentTime players =
        some ((players.map fun p => p.documentCurrentTime).foldl max 0)) ∧
    (∀ p ∈ players,
      p.documentCurrentTime ≤
        (players.map fun p => p.documentCurrentTime).foldl max 0) ∧
    documentCurrentTime [] = some 0 := by
  refine ⟨documentCurrentTimeAux_none_iff players 0,
    fun h => documentCurrentTimeAux_some players 0 h, ?_, rfl⟩
  intro p hp
  exact (le_foldl_max (players.map fun p => p.documentCurrentTime) 0).2
    p.documentCurrentTime (List.mem_map_of_mem _ hp)

/-- Witness for C10 at concrete inputs: all players truthy gives the
maximum; a falsy player gives `false`. -/
theorem documentCurrentTime_spec_witness :
    documentCurrentTime [⟨1, 5⟩, ⟨2, 3⟩] = some 5 ∧
    documentCurrentTime [⟨1, 5⟩, ⟨2, 0⟩] = none := by
  constructor
  · have h := (documentCurrentTime_spec [⟨1, 5⟩, ⟨2, 3⟩]).2.1 (by decide)
    simpa using h
  · exact (documentCurrentTime_spec [⟨1, 5⟩, ⟨2, 0⟩]).1.mpr
      ⟨⟨2, 0⟩, by simp, rfl⟩

theorem strictlySequential_awaited_append (c : AnimCall) (t : List AnimEvent) :
    strictlySequential (awaited c ++ t) = strictlySequential t := by
  simp [awaited, strictlySequential]

theorem strictlySequential_awaited (c : AnimCall) :
    strictlySequential (awaited c) = true := by
  simp [awaited, strictlySequential]

theorem strictlySequential_release_trailer (t : List AnimEvent)
    (ht : strictlySequential t = true) :
    ∀ ps : List PlayerFront,
      strictlySequential
        ((ps.flatMap fun p => awaited (.release p)) ++ t) = true := by
  intro ps
  induction ps with
  | nil => simpa using ht
  | cons p ps ih =>
    simpa [List.flatMap_cons, List.append_assoc,
      strictlySequential_awaited_append] using ih

theorem strictlySequential_flatMap_awaited (f : PlayerFront → AnimCall) :
    ∀ ps : List PlayerFront,
      strictlySequential (ps.flatMap fun p => awaited (f p)) = true := by
  intro ps
  induction ps with
  | nil => rfl
  | cons p ps ih => simpa [List.flatMap_cons, strictlySequential_awaited_append] using ih

theorem strictlySequential_setCurrentTime_fallback (time : Nat) (sp : Bool) :
    ∀ ps : List PlayerFront,
      strictlySequential (ps.flatMap fun a =>
        (if sp then awaited (.pause a) else []) ++
          awaited (.setCurrentTime a time)) = true := by
  intro ps
  induction ps with
  | nil => rfl
  | cons a ps ih =>
    cases sp <;>
      simpa [List.flatMap_cons, List.append_assoc,
        strictlySequential_awaited_append] using ih

theorem strictlySequential_destroy_trailer (hme : Bool)
    (ps : List PlayerFront) (t : List AnimEvent)
    (ht : strictlySequential t = true) :
    strictlySequential ((destroyAnimationPlayersRun hme ps).1 ++ t) = true := by
  cases hme <;>
    simp [destroyAnimationPlayersRun, List.append_assoc,
      strictlySequential_awaited_append, strictlySequential_release_trailer t ht]

theorem strictlySequential_mutations :
    ∀ (changes : List AnimChange) (players : List PlayerFront),
      strictlySequential
        (remoteEvents (onAnimationMutationsRun changes players).1) = true := by
  intro changes
  induction changes with
  | nil => intro players; rfl
  | cons ch rest ih =>
    intro players
    by_cases hty : ch.type = .removed
    · have hstep : (mutationStep players ch).1 = awaited (.release ch.player) := by
        simp [mutationStep, hty]
      simp [onAnimationMutationsRun, hstep, remoteEvents, List.filter_append,
        awaited]
      have := ih (mutationStep players ch).2
      simpa [remoteEvents, awaited, strictlySequential] using this
    · have hstep : (mutationStep players ch).1 = [] := by
        simp [mutationStep, hty]
      simpa [onAnimationMutationsRun, hstep] using ih (mutationStep players ch).2

/-- C7: every remote call issued by a controller method is awaited to
completion before the next one begins: the traces of
`toggleCurrentAnimations`, `setCurrentTimeAll`, `setPlaybackRateAll`,
`destroyAnimationPlayers`, `refreshAnimationPlayers` and
`onAnimationMutations` are strictly sequential (matched begin/resolution
pairs), on both the batched and the one-by-one fallback paths, for every
player list. -/
theorem controller_calls_strictly_sequential
    (hTS hSCT hSPRs hSPR hME sp : Bool)
    (players newPlayers : List PlayerFront) (time rate : Nat)
    (changes : List AnimChange) :
    strictlySequential (toggleCurrentAnimationsRun hTS players sp) = true ∧
    strictlySequential (setCurrentTimeAllRun hSCT players time sp) = true ∧
    strictlySequential (setPlaybackRateAllRun hSPRs hSPR players rate) = true ∧
    strictlySequential (destroyAnimationPlayersRun hME players).1 = true ∧
    strictlySequential (refreshAnimationPlayersRun hME players newPlayers).1 = true ∧
    strictlySequential
      (remoteEvents (onAnimationMutationsRun changes players).1) = true := by
  refine ⟨?_, ?_, ?_, ?_, ?_, strictlySequential_mutations changes players⟩
  · cases hTS
    · cases sp
      · exact strictlySequential_flatMap_awaited AnimCall.play players
      · exact strictlySequential_flatMap_awaited AnimCall.pause players
    · simpa [toggleCurrentAnimationsRun] using
        strictlySequential_awaited (.toggleSeveral players sp)
  · cases hSCT
    · simpa [setCurrentTimeAllRun] using
        strictlySequential_setCurrentTime_fallback time sp players
    · simpa [setCurrentTimeAllRun] using
        strictlySequential_awaited (.setCurrentTimes players time sp)
  · cases hSPRs
    · cases hSPR
      · simp [setPlaybackRateAllRun, strictlySequential]
      · simpa [setPlaybackRateAllRun] using
          strictlySequential_flatMap_awaited
            (fun a => AnimCall.setPlaybackRate a rate) players
    · simpa [setPlaybackRateAllRun] using
        strictlySequential_awaited (.setPlaybackRates players rate)
  · simpa using strictlySequential_destroy_trailer hME players [] rfl
  · simpa [refreshAnimationPlayersRun] using
      strictlySequential_destroy_trailer hME players
        (awaited .getAnimationPlayersForNode)
        (strictlySequential_awaited .getAnimationPlayersForNode)

theorem releasedOf_append (a b : List AnimEvent) :
    releasedOf (a ++ b) = releasedOf a ++ releasedOf b := by
  induction a with
  | nil => rfl
  | cons e a ih =>
    cases e with
    | call c => cases c <;> simp [releasedOf, ih]
    | ret c => simp [releasedOf, ih]
    | emitPlayersUpdated => simp [releasedOf, ih]

theorem releasedOf_flatMap_release :
    ∀ ps : List PlayerFront,
      releasedOf (ps.flatMap fun p => awaited (.release p)) = ps := by
  intro ps
  induction ps with
  | nil => rfl
  | cons p ps ih =>
    simp only [List.flatMap_cons, releasedOf_append, ih]
    rfl

theorem releasedOf_destroy (hme : Bool) (ps : List PlayerFront) :
    releasedOf (destroyAnimationPlayersRun hme ps).1 = ps := by
  have h1 : releasedOf (awaited .stopAnimationPlayerUpdates) = [] := rfl
  cases hme
  · simpa [destroyAnimationPlayersRun] using releasedOf_flatMap_release ps
  · simp [destroyAnimationPlayersRun, releasedOf_append, h1,
      releasedOf_flatMap_release ps]

theorem mutations_valid_spec :
    ∀ (changes : List AnimChange) (players : List PlayerFront),
      validChanges players changes = true →
      (onAnimationMutationsRun changes players).2 =
        specApplyChanges players changes ∧
      releasedOf (onAnimationMutationsRun changes players).1 =
        removedPlayers changes := by
  intro changes
  induction changes with
  | nil => intro players _; exact ⟨rfl, rfl⟩
  | cons ch rest ih =>
    intro players h
    simp only [validChanges, Bool.and_eq_true, Bool.or_eq_true,
      decide_eq_true_eq] at h
    obtain ⟨h1, h2⟩ := h
    cases hty : ch.type with
    | added =>
      have hstep : mutationStep players ch = ([], players ++ [ch.player]) := by
        simp [mutationStep, hty]
      have hr := ih (players ++ [ch.player]) (by rw [hstep] at h2; exact h2)
      constructor
      · simp only [onAnimationMutationsRun, hstep, hr.1,
          specApplyChanges, hty]
      · simp only [onAnimationMutationsRun, hstep, releasedOf_append,
          hr.2, removedPlayers, hty]
        simp [releasedOf]
    | removed =>
      have hmem : ch.player ∈ players := by
        rcases h1 with h1 | h1
        · rw [hty] at h1; cases h1
        · exact h1
      have hstep : mutationStep players ch =
          (awaited (.release ch.player), players.erase ch.player) := by
        simp [mutationStep, hty, spliceAtIndexOf, hmem]
      have hr := ih (players.erase ch.player) (by rw [hstep] at h2; exact h2)
      constructor
      · simp only [onAnimationMutationsRun, hstep, hr.1,
          specApplyChanges, hty]
      · simp only [onAnimationMutationsRun, hstep, releasedOf_append,
          hr.2, removedPlayers, hty]
        simp [awaited, releasedOf]

/-- C3 counterexample: a `removed` change whose player (`⟨1, 1⟩`) is not
in the list releases that player but then removes the list's LAST element
(`splice(-1, 1)`): the still-live front `⟨0, 1⟩` disappears from the list
without ever being released, while the claim's reading (remove the change's
player) would have left the list unchanged.  So the list does not always
contain exactly the live handles. -/
theorem onAnimationMutations_absent_removed_counterexample :
    (onAnimationMutationsRun [⟨.removed, ⟨1, 1⟩⟩] [⟨0, 1⟩]).2 = [] ∧
    releasedOf (onAnimationMutationsRun [⟨.removed, ⟨1, 1⟩⟩] [⟨0, 1⟩]).1 =
      [⟨1, 1⟩] ∧
    specApplyChanges [⟨0, 1⟩] [⟨.removed, ⟨1, 1⟩⟩] = [⟨0, 1⟩] := by
  decide

/-- C3 amended: `destroyAnimationPlayers` releases every held front and
leaves the list empty; `refreshAnimationPlayers` releases every previously
held front before the node query and replaces the list with the returned
fronts; `onAnimationMutations` appends each `added` player and
releases-then-removes each `removed` player, provided each removed player
is in the list when its change is processed (for an absent player the code
would instead drop the list's last element). -/
theorem animationPlayers_lifecycle (hme : Bool)
    (players newPlayers : List PlayerFront) (changes : List AnimChange) :
    (destroyAnimationPlayersRun hme players).2 = [] ∧
    releasedOf (destroyAnimationPlayersRun hme players).1 = players ∧
    (refreshAnimationPlayersRun hme players newPlayers).2 = newPlayers ∧
    (∃ pre, (refreshAnimationPlayersRun hme players newPlayers).1 =
        pre ++ awaited .getAnimationPlayersForNode ∧
      releasedOf pre = players) ∧
    (validChanges players changes = true →
      (onAnimationMutationsRun changes players).2 =
        specApplyChanges players changes ∧
      releasedOf (onAnimationMutationsRun changes players).1 =
        removedPlayers changes) := by
  refine ⟨rfl, releasedOf_destroy hme players, rfl,
    ⟨(destroyAnimationPlayersRun hme players).1, rfl,
      releasedOf_destroy hme players⟩,
    fun h => mutations_valid_spec changes players h⟩

/-- Witness for the amended C3 at a concrete input: on `[⟨0, 1⟩]`, a valid
change list removing `⟨0, 1⟩` and adding `⟨1, 1⟩` yields the list
`[⟨1, 1⟩]` with exactly `⟨0, 1⟩` released. -/
theorem animationPlayers_lifecycle_witness :
    (onAnimationMutationsRun [⟨.removed, ⟨0, 1⟩⟩, ⟨.added, ⟨1, 1⟩⟩]
      [⟨0, 1⟩]).2 = [⟨1, 1⟩] ∧
    releasedOf (onAnimationMutationsRun [⟨.removed, ⟨0, 1⟩⟩, ⟨.added, ⟨1, 1⟩⟩]
      [⟨0, 1⟩]).1 = [⟨0, 1⟩] := by
  have h := (animationPlayers_lifecycle false [⟨0, 1⟩] []
    [⟨.removed, ⟨0, 1⟩⟩, ⟨.added, ⟨1, 1⟩⟩]).2.2.2.2 (by decide)
  exact ⟨by rw [h.1]; decide, by rw [h.2]; decide⟩

/-- C5 counterexample: the controller registers no timer and no
periodic-poll handler anywhere — its only listener registrations are the
selection, sidebar, toolbox and front-mutations events, and the only call
site of `refreshAnimationPlayers` is `onNewNodeFront` — so it is false
that every refresh of `animationPlayers` is initiated by a periodic poll
of the front. -/
theorem no_periodic_poll_counterexample :
    EventSource.timerPoll ∉ allListenerRegistrations ∧
    "timerPollHandler" ∉
      refreshAnimationPlayersCallers ++ onNewNodeFrontCallers ++
        onPanelVisibilityChangeCallers := by
  decide

/-- C5 amended: the controller is event-driven, not polling.  Every
refresh of `animationPlayers` goes through `onNewNodeFront`, which is
invoked only at controller startup, on a selection `new-node-front` event,
or on a sidebar/toolbox `select` (panel-visibility) event; between
refreshes the list is updated by the server-pushed `mutations` events; no
timer-poll source is ever registered. -/
theorem refresh_event_driven :
    refreshAnimationPlayersCallers = ["onNewNodeFront"] ∧
    onNewNodeFrontCallers =
      ["controllerStartup", "newNodeFrontListener",
       "onPanelVisibilityChange"] ∧
    onPanelVisibilityChangeCallers =
      ["sidebarSelectListener", "toolboxSelectListener"] ∧
    allListenerRegistrations =
      [.selectionNewNodeFront, .sidebarSelect, .toolboxSelect,
       .frontMutations] ∧
    EventSource.timerPoll ∉ allListenerRegistrations := by
  refine ⟨rfl, rfl, rfl, rfl, by decide⟩

end Anim

namespace Memory

theorem dispatched_append (a b : List MemEvent) :
    dispatched (a ++ b) = dispatched a ++ dispatched b := by
  induction a with
  | nil => rfl
  | cons e a ih => cases e <;> simp [dispatched, ih]

theorem callsOf_append (a b : List MemEvent) :
    callsOf (a ++ b) = callsOf a ++ callsOf b := by
  induction a with
  | nil => rfl
  | cons e a ih => cases e <;> simp [callsOf, ih]

theorem applyEvents_eq_foldl (reduce : StoreState → MemAction → StoreState) :
    ∀ (t : List MemEvent) (s : StoreState),
      applyEvents reduce s t = (dispatched t).foldl reduce s := by
  intro t
  induction t with
  | nil => intro s; rfl
  | cons e t ih => intro s; cases e <;> simp [applyEvents, dispatched, ih]

theorem taskDispatch_not_mem_takeSnapshot (s : StoreState) (fresh : Snapshot)
    (save : Except HeapError Path) (tk : MemTask) :
    MemEvent.taskDispatch tk ∉ (takeSnapshotRun s fresh save).1 := by
  cases save <;> by_cases hd : s.diffing <;> simp [takeSnapshotRun, hd]

theorem taskDispatch_not_mem_readSnapshot (s : StoreState) (id : Nat)
    (rr : Except HeapError Unit) (cr : Except HeapError CreationTime)
    (tk : MemTask) :
    MemEvent.taskDispatch tk ∉ readSnapshotRun s id rr cr := by
  unfold readSnapshotRun
  cases getSnapshot s id with
  | none => simp
  | some sn =>
    by_cases hst : sn.state = .SAVED ∨ sn.state = .IMPORTING
    · simp only [if_pos hst]
      cases rr with
      | error e => simp
      | ok u =>
        cases cr with
        | error e => simp
        | ok t => simp
    · simp [if_neg hst]

theorem taskDispatch_not_mem_censusLoop (states : Nat → StoreState)
    (census : Nat → Except HeapError Report)
    (beq : Breakdown → Breakdown → Bool) (id : Nat) (path : Option Path)
    (tk : MemTask) :
    ∀ (fuel i : Nat),
      MemEvent.taskDispatch tk ∉
        (takeCensusLoop states census beq id path i fuel).1 := by
  intro fuel
  induction fuel with
  | zero => intro i; simp [takeCensusLoop]
  | succ fuel ih =>
    intro i
    simp only [takeCensusLoop]
    split
    · simp
    · split
      · simpa using ih (i + 1)
      · simp

theorem taskDispatch_not_mem_censusRun
    (cut : Bool → Filter → Breakdown → Option Census → Bool)
    (beq : Breakdown → Breakdown → Bool) (states : Nat → StoreState)
    (census : Nat → Except HeapError Report) (id fuel : Nat)
    (tk : MemTask) :
    MemEvent.taskDispatch tk ∉
      (takeCensusRun cut beq states census id fuel).1 := by
  unfold takeCensusRun
  cases getSnapshot (states 0) id with
  | none => simp
  | some sn =>
    by_cases hst : sn.state = .READ ∨ sn.state = .SAVED_CENSUS
    · simp only [if_pos hst]
      by_cases hcut : cut (states 0).inverted (states 0).filter
          (states 0).breakdown sn.census
      · simp [hcut]
      · simpa [hcut] using
          taskDispatch_not_mem_censusLoop states census beq id sn.path tk fuel 0
    · simp [if_neg hst]

theorem takeCensusLoop_completed_spec (states : Nat → StoreState)
    (census : Nat → Except HeapError Report)
    (beq : Breakdown → Breakdown → Bool) (id : Nat) (path : Option Path) :
    ∀ (fuel i i2 : Nat) (inv : Bool) (f : Filter) (b : Breakdown)
      (r : Report),
      (takeCensusLoop states census beq id path i fuel).2 =
        .completed i2 inv f b r →
      i ≤ i2 ∧ i2 < i + fuel ∧
      inv = (states i2).inverted ∧ f = (states i2).filter ∧
      b = (states i2).breakdown ∧
      (states i2).inverted = (states (i2 + 1)).inverted ∧
      (states i2).filter = (states (i2 + 1)).filter ∧
      beq (states i2).breakdown ((states (i2 + 1)).breakdown) = true ∧
      census i2 = .ok r ∧
      (∀ j, i ≤ j → j < i2 →
        ¬((states j).inverted = (states (j + 1)).inverted ∧
          (states j).filter = (states (j + 1)).filter ∧
          beq (states j).breakdown ((states (j + 1)).breakdown) = true)) ∧
      (∃ pre, (takeCensusLoop states census beq id path i fuel).1 =
        pre ++ [.dispatch (.TAKE_CENSUS_END id b inv f r)]) ∧
      callsOf (takeCensusLoop states census beq id path i fuel).1 =
        (List.range' i (i2 - i + 1)).map (censusCallAt states path) := by
  intro fuel
  induction fuel with
  | zero =>
    intro i i2 inv f b r h
    simp [takeCensusLoop] at h
  | succ fuel ih =>
    intro i i2 inv f b r h
    cases hc : census i with
    | error e =>
      have h2 : (takeCensusLoop states census beq id path i (fuel + 1)).2 =
          .errored := by
        simp [takeCensusLoop, hc]
      rw [h2] at h
      exact CensusOutcome.noConfusion h
    | ok report =>
      by_cases hcond :
        ¬(states i).inverted = (states (i + 1)).inverted ∨
          ¬(states i).filter = (states (i + 1)).filter ∨
            beq (states i).breakdown ((states (i + 1)).breakdown) = false
      · have htr : (takeCensusLoop states census beq id path i (fuel + 1)).1 =
            [MemEvent.dispatch (.TAKE_CENSUS_START id (states i).inverted
                (states i).filter (states i).breakdown),
             MemEvent.call (censusCallAt states path i),
             MemEvent.ret (censusCallAt states path i)] ++
              (takeCensusLoop states census beq id path (i + 1) fuel).1 := by
          simp [takeCensusLoop, hc, hcond, censusCallAt]
        have hout : (takeCensusLoop states census beq id path i (fuel + 1)).2 =
            (takeCensusLoop states census beq id path (i + 1) fuel).2 := by
          simp [takeCensusLoop, hc, hcond]
        rw [hout] at h
        obtain ⟨h1, h2, h3, h4, h5, h6, h7, h8, h9, h10, h11, h12⟩ :=
          ih (i + 1) i2 inv f b r h
        refine ⟨by omega, by omega, h3, h4, h5, h6, h7, h8, h9, ?_, ?_, ?_⟩
        · intro j hij hj2 hcontra
          rcases Nat.lt_or_ge i j with hlt | hge
          · exact h10 j hlt hj2 hcontra
          · have hji : j = i := Nat.le_antisymm hge hij
            subst hji
            obtain ⟨ha, hb, hcb⟩ := hcontra
            rcases hcond with hx | hx | hx
            · exact hx ha
            · exact hx hb
            · rw [hcb] at hx
              exact Bool.noConfusion hx
        · obtain ⟨pre, hpre⟩ := h11
          refine ⟨[MemEvent.dispatch (.TAKE_CENSUS_START id
              (states i).inverted (states i).filter (states i).breakdown),
            MemEvent.call (censusCallAt states path i),
            MemEvent.ret (censusCallAt states path i)] ++ pre, ?_⟩
          rw [htr, hpre, List.append_assoc]
        · rw [htr, callsOf_append, h12]
          have hcalls : callsOf
              [MemEvent.dispatch (.TAKE_CENSUS_START id (states i).inverted
                  (states i).filter (states i).breakdown),
               MemEvent.call (censusCallAt states path i),
               MemEvent.ret (censusCallAt states path i)] =
              [censusCallAt states path i] := rfl
          rw [hcalls]
          have harith : i2 - i + 1 = (i2 - (i + 1) + 1) + 1 := by omega
          rw [harith, List.range'_succ i (i2 - (i + 1) + 1) 1]
          simp
      · have hres : takeCensusLoop states census beq id path i (fuel + 1) =
            ([MemEvent.dispatch (.TAKE_CENSUS_START id (states i).inverted
                 (states i).filter (states i).breakdown),
              MemEvent.call (censusCallAt states path i),
              MemEvent.ret (censusCallAt states path i),
              MemEvent.dispatch (.TAKE_CENSUS_END id (states i).breakdown
                 (states i).inverted (states i).filter report)],
             .completed i (states i).inverted (states i).filter
               (states i).breakdown report) := by
          simp [takeCensusLoop, hc, hcond, censusCallAt]
        push_neg at hcond
        obtain ⟨ha, hb, hcb⟩ := hcond
        have hcb2 : beq (states i).breakdown ((states (i + 1)).breakdown) =
            true := by
          cases hx : beq (states i).breakdown ((states (i + 1)).breakdown)
          · exact absurd hx hcb
          · rfl
        rw [hres] at h
        have hinj := h
        injection hinj with hi hinv hf hbk hr
        subst hi
        subst hinv
        subst hf
        subst hbk
        subst hr
        refine ⟨Nat.le_refl i, by omega, rfl, rfl, rfl, ha, hb, hcb2, hc,
          ?_, ?_, ?_⟩
        · intro j hij hj2
          omega
        · refine ⟨[MemEvent.dispatch (.TAKE_CENSUS_START id
              (states i).inverted (states i).filter (states i).breakdown),
            MemEvent.call (censusCallAt states path i),
            MemEvent.ret (censusCallAt states path i)], ?_⟩
          rw [hres]
          rfl
        · rw [hres]
          simp [callsOf, censusCallAt]

/-- C1: whenever a remote call of `takeSnapshot`
(`front.saveHeapSnapshot`), `readSnapshot` (`heapWorker.readHeapSnapshot`
or `heapWorker.getCreationTime`) or `takeCensus`
(`heapWorker.takeCensus`) fails, the error is reported and a
`SNAPSHOT_ERROR` action carrying the snapshot id and the error is
dispatched as the very last event of the run — no further actions follow
— and the trace's call list shows each remote call was begun at most
once, so the failed call is never retried. -/
theorem remote_errors_caught_and_abort :
    (∀ (s : StoreState) (fresh : Snapshot) (e : HeapError),
      (takeSnapshotRun s fresh (.error e)).2 = none ∧
      (∃ pre, (takeSnapshotRun s fresh (.error e)).1 =
          pre ++ [.reportException "takeSnapshot" e,
                  .dispatch (.SNAPSHOT_ERROR fresh.id e)]) ∧
      callsOf (takeSnapshotRun s fresh (.error e)).1 =
        [.saveHeapSnapshot]) ∧
    (∀ (s : StoreState) (id : Nat) (sn : Snapshot) (e : HeapError)
       (cr : Except HeapError CreationTime),
      getSnapshot s id = some sn →
      (sn.state = .SAVED ∨ sn.state = .IMPORTING) →
      (∃ pre, readSnapshotRun s id (.error e) cr =
          pre ++ [.reportException "readSnapshot" e,
                  .dispatch (.SNAPSHOT_ERROR id e)]) ∧
      callsOf (readSnapshotRun s id (.error e) cr) =
        [.readHeapSnapshot sn.path]) ∧
    (∀ (s : StoreState) (id : Nat) (sn : Snapshot) (e : HeapError),
      getSnapshot s id = some sn →
      (sn.state = .SAVED ∨ sn.state = .IMPORTING) →
      (∃ pre, readSnapshotRun s id (.ok ()) (.error e) =
          pre ++ [.reportException "readSnapshot" e,
                  .dispatch (.SNAPSHOT_ERROR id e)]) ∧
      callsOf (readSnapshotRun s id (.ok ()) (.error e)) =
        [.readHeapSnapshot sn.path, .getCreationTime sn.path]) ∧
    (∀ (states : Nat → StoreState) (census : Nat → Except HeapError Report)
       (beq : Breakdown → Breakdown → Bool) (id : Nat) (path : Option Path)
       (i fuel : Nat) (e : HeapError),
      census i = .error e →
      (takeCensusLoop states census beq id path i (fuel + 1)).2 =
        .errored ∧
      (∃ pre, (takeCensusLoop states census beq id path i (fuel + 1)).1 =
          pre ++ [.reportException "takeCensus" e,
                  .dispatch (.SNAPSHOT_ERROR id e)]) ∧
      callsOf (takeCensusLoop states census beq id path i (fuel + 1)).1 =
        [censusCallAt states path i]) := by
  refine ⟨?_, ?_, ?_, ?_⟩
  · intro s fresh e
    refine ⟨rfl, ⟨(if s.diffing then [MemEvent.dispatch .TOGGLE_DIFFING]
        else []) ++
      [.dispatch (.TAKE_SNAPSHOT_START fresh),
       .dispatch (.SELECT_SNAPSHOT fresh.id),
       .call .saveHeapSnapshot, .threw .saveHeapSnapshot e], ?_⟩, ?_⟩
    · by_cases hd : s.diffing <;> simp [takeSnapshotRun, hd]
    · by_cases hd : s.diffing <;> simp [takeSnapshotRun, hd, callsOf]
  · intro s id sn e cr hsn hst
    refine ⟨⟨[.dispatch (.READ_SNAPSHOT_START id),
        .call (.readHeapSnapshot sn.path),
        .threw (.readHeapSnapshot sn.path) e], ?_⟩, ?_⟩
    · simp [readSnapshotRun, hsn, hst]
    · simp [readSnapshotRun, hsn, hst, callsOf]
  · intro s id sn e hsn hst
    refine ⟨⟨[.dispatch (.READ_SNAPSHOT_START id),
        .call (.readHeapSnapshot sn.path),
        .ret (.readHeapSnapshot sn.path),
        .call (.getCreationTime sn.path),
        .threw (.getCreationTime sn.path) e], ?_⟩, ?_⟩
    · simp [readSnapshotRun, hsn, hst]
    · simp [readSnapshotRun, hsn, hst, callsOf]
  · intro states census beq id path i fuel e hce
    refine ⟨?_, ⟨[.dispatch (.TAKE_CENSUS_START id (states i).inverted
          (states i).filter (states i).breakdown),
        .call (censusCallAt states path i),
        .threw (censusCallAt states path i) e], ?_⟩, ?_⟩
    · simp [takeCensusLoop, hce]
    · simp [takeCensusLoop, hce, censusCallAt]
    · simp [takeCensusLoop, hce, censusCallAt, callsOf]

/-- Witness for C1 at concrete inputs: each failing remote call yields a
trace ending in the matching `SNAPSHOT_ERROR` dispatch with exactly the
expected remote calls begun. -/
theorem remote_errors_caught_and_abort_witness :
    (takeSnapshotRun ⟨[], false, "b", none, false⟩
      ⟨7, .SAVING, none, none, none, false⟩ (.error "x")).2 = none ∧
    callsOf (readSnapshotRun
      ⟨[⟨7, .SAVED, some "p", none, none, false⟩], false, "b", none, false⟩
      7 (.error "x") (.ok 0)) =
      [.readHeapSnapshot (some "p")] := by
  constructor
  · exact (remote_errors_caught_and_abort.1
      ⟨[], false, "b", none, false⟩
      ⟨7, .SAVING, none, none, none, false⟩ "x").1
  · exact (remote_errors_caught_and_abort.2.1
      ⟨[⟨7, .SAVED, some "p", none, none, false⟩], false, "b", none, false⟩
      7 ⟨7, .SAVED, some "p", none, none, false⟩ "x" (.ok 0)
      (by simp [getSnapshot]) (Or.inl rfl)).2

/-- C8: `takeSnapshot` returns the fresh snapshot's id exactly when
`front.saveHeapSnapshot` resolves and `null` exactly when it throws, and
in both cases the new snapshot has already been announced
(`TAKE_SNAPSHOT_START`) and selected (`SELECT_SNAPSHOT`) before the
remote call begins. -/
theorem takeSnapshot_return_and_order (s : StoreState) (fresh : Snapshot)
    (save : Except HeapError Path) :
    ((takeSnapshotRun s fresh save).2 = some fresh.id ↔
      ∃ p, save = .ok p) ∧
    ((takeSnapshotRun s fresh save).2 = none ↔ ∃ e, save = .error e) ∧
    ∃ rest, (takeSnapshotRun s fresh save).1 =
      (if s.diffing then [MemEvent.dispatch .TOGGLE_DIFFING] else []) ++
      [.dispatch (.TAKE_SNAPSHOT_START fresh),
       .dispatch (.SELECT_SNAPSHOT fresh.id),
       .call .saveHeapSnapshot] ++ rest := by
  cases save with
  | error e =>
    refine ⟨by simp [takeSnapshotRun], by simp [takeSnapshotRun],
      ⟨[.threw .saveHeapSnapshot e, .reportException "takeSnapshot" e,
        .dispatch (.SNAPSHOT_ERROR fresh.id e)], ?_⟩⟩
    by_cases hd : s.diffing <;> simp [takeSnapshotRun, hd]
  | ok p =>
    refine ⟨by simp [takeSnapshotRun], by simp [takeSnapshotRun],
      ⟨[.ret .saveHeapSnapshot,
        .dispatch (.TAKE_SNAPSHOT_END fresh.id p)], ?_⟩⟩
    by_cases hd : s.diffing <;> simp [takeSnapshotRun, hd]

theorem takeCensusLoop_end_implies_completed (states : Nat → StoreState)
    (census : Nat → Except HeapError Report)
    (beq : Breakdown → Breakdown → Bool) (id : Nat) (path : Option Path) :
    ∀ (fuel i : Nat) (a : MemAction),
      a ∈ dispatched (takeCensusLoop states census beq id path i fuel).1 →
      isTakeCensusEnd a = true →
      ∃ i2 inv f b r,
        (takeCensusLoop states census beq id path i fuel).2 =
          .completed i2 inv f b r := by
  intro fuel
  induction fuel with
  | zero => intro i a ha _; simp [takeCensusLoop, dispatched] at ha
  | succ fuel ih =>
    intro i a ha hend
    cases hc : census i with
    | error e =>
      have htr : (takeCensusLoop states census beq id path i (fuel + 1)).1 =
          [MemEvent.dispatch (.TAKE_CENSUS_START id (states i).inverted
              (states i).filter (states i).breakdown),
           MemEvent.call (censusCallAt states path i),
           MemEvent.threw (censusCallAt states path i) e,
           MemEvent.reportException "takeCensus" e,
           MemEvent.dispatch (.SNAPSHOT_ERROR id e)] := by
        simp [takeCensusLoop, hc, censusCallAt]
      rw [htr] at ha
      simp [dispatched] at ha
      rcases ha with rfl | rfl <;> simp [isTakeCensusEnd] at hend
    | ok report =>
      by_cases hcond :
        ¬(states i).inverted = (states (i + 1)).inverted ∨
          ¬(states i).filter = (states (i + 1)).filter ∨
            beq (states i).breakdown ((states (i + 1)).breakdown) = false
      · have htr : (takeCensusLoop states census beq id path i (fuel + 1)).1 =
            [MemEvent.dispatch (.TAKE_CENSUS_START id (states i).inverted
                (states i).filter (states i).breakdown),
             MemEvent.call (censusCallAt states path i),
             MemEvent.ret (censusCallAt states path i)] ++
              (takeCensusLoop states census beq id path (i + 1) fuel).1 := by
          simp [takeCensusLoop, hc, hcond, censusCallAt]
        have hout : (takeCensusLoop states census beq id path i (fuel + 1)).2 =
            (takeCensusLoop states census beq id path (i + 1) fuel).2 := by
          simp [takeCensusLoop, hc, hcond]
        rw [htr] at ha
        rw [hout]
        rw [dispatched_append] at ha
        simp [dispatched] at ha
        rcases ha with rfl | ha
        · simp [isTakeCensusEnd] at hend
        · exact ih (i + 1) a ha hend
      · refine ⟨i, (states i).inverted, (states i).filter,
          (states i).breakdown, report, ?_⟩
        simp [takeCensusLoop, hc, hcond]

/-- C4: each optional snapshot field is filled exactly when the matching
remote response arrives: the `TAKE_SNAPSHOT_END` action carries the path
`front.saveHeapSnapshot` resolved with and follows that resolution; the
`READ_SNAPSHOT_END` action carries the creation time
`heapWorker.getCreationTime` resolved with and follows that resolution;
the `TAKE_CENSUS_END` action carries the report of the final
`heapWorker.takeCensus` resolution; and on a failed call the
corresponding `END` action is never dispatched. -/
theorem end_actions_carry_responses :
    (∀ (s : StoreState) (fresh : Snapshot) (p : Path),
      ∃ pre, (takeSnapshotRun s fresh (.ok p)).1 =
        pre ++ [.ret .saveHeapSnapshot,
                .dispatch (.TAKE_SNAPSHOT_END fresh.id p)]) ∧
    (∀ (s : StoreState) (fresh : Snapshot) (e : HeapError),
      ∀ a ∈ dispatched (takeSnapshotRun s fresh (.error e)).1,
        isTakeSnapshotEnd a = false) ∧
    (∀ (s : StoreState) (id : Nat) (sn : Snapshot) (t : CreationTime),
      getSnapshot s id = some sn →
      (sn.state = .SAVED ∨ sn.state = .IMPORTING) →
      ∃ pre, readSnapshotRun s id (.ok ()) (.ok t) =
        pre ++ [.ret (.getCreationTime sn.path),
                .dispatch (.READ_SNAPSHOT_END id t)]) ∧
    (∀ (s : StoreState) (id : Nat) (e : HeapError)
       (cr : Except HeapError CreationTime),
      ∀ a ∈ dispatched (readSnapshotRun s id (.error e) cr),
        isReadSnapshotEnd a = false) ∧
    (∀ (s : StoreState) (id : Nat) (e : HeapError),
      ∀ a ∈ dispatched (readSnapshotRun s id (.ok ()) (.error e)),
        isReadSnapshotEnd a = false) ∧
    (∀ (cut : Bool → Filter → Breakdown → Option Census → Bool)
       (beq : Breakdown → Breakdown → Bool) (states : Nat → StoreState)
       (census : Nat → Except HeapError Report) (id fuel i2 : Nat)
       (inv : Bool) (f : Filter) (b : Breakdown) (r : Report),
      (takeCensusRun cut beq states census id fuel).2 =
        .completed i2 inv f b r →
      census i2 = .ok r ∧
      ∃ pre, (takeCensusRun cut beq states census id fuel).1 =
        pre ++ [.dispatch (.TAKE_CENSUS_END id b inv f r)]) ∧
    (∀ (cut : Bool → Filter → Breakdown → Option Census → Bool)
       (beq : Breakdown → Breakdown → Bool) (states : Nat → StoreState)
       (census : Nat → Except HeapError Report) (id fuel : Nat),
      (takeCensusRun cut beq states census id fuel).2 = .errored →
      ∀ a ∈ dispatched (takeCensusRun cut beq states census id fuel).1,
        isTakeCensusEnd a = false) := by
  refine ⟨?_, ?_, ?_, ?_, ?_, ?_, ?_⟩
  · intro s fresh p
    refine ⟨(if s.diffing then [MemEvent.dispatch .TOGGLE_DIFFING]
        else []) ++
      [.dispatch (.TAKE_SNAPSHOT_START fresh),
       .dispatch (.SELECT_SNAPSHOT fresh.id),
       .call .saveHeapSnapshot], ?_⟩
    by_cases hd : s.diffing <;> simp [takeSnapshotRun, hd]
  · intro s fresh e a ha
    by_cases hd : s.diffing <;>
      simp [takeSnapshotRun, hd, dispatched] at ha <;>
      rcases ha with rfl | rfl | rfl | rfl <;> rfl
  · intro s id sn t hsn hst
    refine ⟨[.dispatch (.READ_SNAPSHOT_START id),
      .call (.readHeapSnapshot sn.path),
      .ret (.readHeapSnapshot sn.path),
      .call (.getCreationTime sn.path)], ?_⟩
    simp [readSnapshotRun, hsn, hst]
  · intro s id e cr a ha
    unfold readSnapshotRun at ha
    cases hsn : getSnapshot s id with
    | none => rw [hsn] at ha; simp [dispatched] at ha
    | some sn =>
      rw [hsn] at ha
      by_cases hst : sn.state = .SAVED ∨ sn.state = .IMPORTING
      · simp [hst, dispatched] at ha
        rcases ha with rfl | rfl <;> rfl
      · simp [hst, dispatched] at ha
  · intro s id e a ha
    unfold readSnapshotRun at ha
    cases hsn : getSnapshot s id with
    | none => rw [hsn] at ha; simp [dispatched] at ha
    | some sn =>
      rw [hsn] at ha
      by_cases hst : sn.state = .SAVED ∨ sn.state = .IMPORTING
      · simp [hst, dispatched] at ha
        rcases ha with rfl | rfl <;> rfl
      · simp [hst, dispatched] at ha
  · intro cut beq states census id fuel i2 inv f b r h
    rcases hsn : getSnapshot (states 0) id with _ | sn
    · have hr : takeCensusRun cut beq states census id fuel =
          ([MemEvent.jsError], .precondFailed) := by
        simp [takeCensusRun, hsn]
      rw [hr] at h
      exact CensusOutcome.noConfusion h
    · by_cases hst : sn.state = .READ ∨ sn.state = .SAVED_CENSUS
      · by_cases hcut : cut (states 0).inverted (states 0).filter
            (states 0).breakdown sn.census = true
        · have hr : takeCensusRun cut beq states census id fuel =
              ([], .upToDate) := by
            simp [takeCensusRun, hsn, hst, hcut]
          rw [hr] at h
          exact CensusOutcome.noConfusion h
        · have hr : takeCensusRun cut beq states census id fuel =
              takeCensusLoop states census beq id sn.path 0 fuel := by
            simp [takeCensusRun, hsn, hst, hcut]
          rw [hr] at h ⊢
          have hs := takeCensusLoop_completed_spec states census beq id
            sn.path fuel 0 i2 inv f b r h
          exact ⟨hs.2.2.2.2.2.2.2.2.1, hs.2.2.2.2.2.2.2.2.2.2.1⟩
      · have hr : takeCensusRun cut beq states census id fuel =
            ([MemEvent.jsError], .precondFailed) := by
          simp [takeCensusRun, hsn, hst]
        rw [hr] at h
        exact CensusOutcome.noConfusion h
  · intro cut beq states census id fuel h a ha
    rcases hsn : getSnapshot (states 0) id with _ | sn
    · have hr : takeCensusRun cut beq states census id fuel =
          ([MemEvent.jsError], .precondFailed) := by
        simp [takeCensusRun, hsn]
      rw [hr] at ha
      simp [dispatched] at ha
    · by_cases hst : sn.state = .READ ∨ sn.state = .SAVED_CENSUS
      · by_cases hcut : cut (states 0).inverted (states 0).filter
            (states 0).breakdown sn.census = true
        · have hr : takeCensusRun cut beq states census id fuel =
              ([], .upToDate) := by
            simp [takeCensusRun, hsn, hst, hcut]
          rw [hr] at ha
          simp [dispatched] at ha
        · have hr : takeCensusRun cut beq states census id fuel =
              takeCensusLoop states census beq id sn.path 0 fuel := by
            simp [takeCensusRun, hsn, hst, hcut]
          rw [hr] at h ha
          by_contra hcontra
          have hend : isTakeCensusEnd a = true := by
            cases hx : isTakeCensusEnd a
            · exact absurd hx hcontra
            · rfl
          obtain ⟨j2, inv, f, b, r, hcomp⟩ :=
            takeCensusLoop_end_implies_completed states census beq id
              sn.path fuel 0 a ha hend
          rw [hcomp] at h
          exact CensusOutcome.noConfusion h
      · have hr : takeCensusRun cut beq states census id fuel =
            ([MemEvent.jsError], .precondFailed) := by
          simp [takeCensusRun, hsn, hst]
        rw [hr] at ha
        simp [dispatched] at ha

/-- Witness for C4 at concrete inputs: the `READ_SNAPSHOT_END` action
carries the resolved creation time and the `TAKE_CENSUS_END` action
carries the resolved report, each as the final event. -/
theorem end_actions_carry_responses_witness :
    (∃ pre, readSnapshotRun
        ⟨[⟨7, .SAVED, some "p", none, none, false⟩], false, "b", none,
          false⟩ 7 (.ok ()) (.ok 5) =
      pre ++ [.ret (.getCreationTime (some "p")),
              .dispatch (.READ_SNAPSHOT_END 7 5)]) ∧
    (∃ pre, (takeCensusRun (fun _ _ _ _ => false) (fun a b => a == b)
        (fun _ => ⟨[⟨7, .READ, some "p", none, none, false⟩], false, "b",
          none, false⟩)
        (fun _ => .ok 42) 7 1).1 =
      pre ++ [.dispatch (.TAKE_CENSUS_END 7 "b" false none 42)]) := by
  constructor
  · exact end_actions_carry_responses.2.2.1 _ 7
      ⟨7, .SAVED, some "p", none, none, false⟩ 5 (by decide) (Or.inl rfl)
  · exact (end_actions_carry_responses.2.2.2.2.2.1 (fun _ _ _ _ => false)
      (fun a b => a == b) _ _ 7 1 0 false none "b" 42 (by decide)).2

theorem takeSnapshotRun_ok_snd (s : StoreState) (fresh : Snapshot)
    (p : Path) : (takeSnapshotRun s fresh (.ok p)).2 = some fresh.id := rfl

theorem takeSnapshotRun_error_snd (s : StoreState) (fresh : Snapshot)
    (e : HeapError) : (takeSnapshotRun s fresh (.error e)).2 = none := rfl

/-- C2: a run of `takeSnapshotAndCensus` dispatches `takeSnapshot` first;
if it returns `null` the task stops with no further dispatches; otherwise
`readSnapshot` is dispatched for the returned id, and `takeCensus` is
dispatched for that id if and only if the snapshot's state equals `READ`
once `readSnapshot` has completed. -/
theorem takeSnapshotAndCensus_sequence (sA : StoreState) (fresh : Snapshot)
    (save : Except HeapError Path) (sB : StoreState)
    (readRes : Except HeapError Unit)
    (ctRes : Except HeapError CreationTime) (sC : Nat → StoreState)
    (cut : Bool → Filter → Breakdown → Option Census → Bool)
    (beq : Breakdown → Breakdown → Bool)
    (census : Nat → Except HeapError Report) (fuel : Nat) :
    (takeSnapshotAndCensusRun sA fresh save sB readRes ctRes sC cut beq
        census fuel).head? = some (.taskDispatch .takeSnapshot) ∧
    (∀ e, save = .error e →
      takeSnapshotAndCensusRun sA fresh save sB readRes ctRes sC cut beq
          census fuel =
        MemEvent.taskDispatch .takeSnapshot ::
          (takeSnapshotRun sA fresh save).1) ∧
    (∀ p, save = .ok p → ∀ sn, getSnapshot (sC 0) fresh.id = some sn →
      (takeSnapshotAndCensusRun sA fresh save sB readRes ctRes sC cut beq
          census fuel =
        (MemEvent.taskDispatch .takeSnapshot ::
          (takeSnapshotRun sA fresh save).1) ++
        (MemEvent.taskDispatch .readSnapshot ::
          readSnapshotRun sB fresh.id readRes ctRes) ++
        (if sn.state = .READ then
          MemEvent.taskDispatch .takeCensus ::
            (takeCensusRun cut beq sC census fresh.id fuel).1
         else [])) ∧
      (MemEvent.taskDispatch .takeCensus ∈
        takeSnapshotAndCensusRun sA fresh save sB readRes ctRes sC cut beq
          census fuel ↔
        sn.state = .READ)) := by
  refine ⟨?_, ?_, ?_⟩
  · cases save with
    | error e => rfl
    | ok p =>
      rcases hsn : getSnapshot (sC 0) fresh.id with _ | sn
      · simp [takeSnapshotAndCensusRun, takeSnapshotRun_ok_snd, hsn]
      · by_cases hr : sn.state = .READ <;>
          simp [takeSnapshotAndCensusRun, takeSnapshotRun_ok_snd, hsn, hr]
  · intro e hsave
    subst hsave
    rfl
  · intro p hsave sn hsn
    subst hsave
    have htrace : takeSnapshotAndCensusRun sA fresh (.ok p) sB readRes ctRes
        sC cut beq census fuel =
      (MemEvent.taskDispatch .takeSnapshot ::
        (takeSnapshotRun sA fresh (.ok p)).1) ++
      (MemEvent.taskDispatch .readSnapshot ::
        readSnapshotRun sB fresh.id readRes ctRes) ++
      (if sn.state = .READ then
        MemEvent.taskDispatch .takeCensus ::
          (takeCensusRun cut beq sC census fresh.id fuel).1
       else []) := by
      by_cases hr : sn.state = .READ <;>
        simp [takeSnapshotAndCensusRun, takeSnapshotRun_ok_snd, hsn, hr]
    refine ⟨htrace, ?_⟩
    rw [htrace]
    by_cases hr : sn.state = .READ
    · simp [hr]
    · simp [hr, taskDispatch_not_mem_takeSnapshot,
        taskDispatch_not_mem_readSnapshot]

/-- Witness for C2 at a concrete input: with the snapshot in `READ` state
after `readSnapshot`, the `takeCensus` task is dispatched. -/
theorem takeSnapshotAndCensus_sequence_witness :
    MemEvent.taskDispatch .takeCensus ∈
      takeSnapshotAndCensusRun ⟨[], false, "b", none, false⟩
        ⟨7, .SAVING, none, none, none, false⟩ (.ok "p")
        ⟨[], false, "b", none, false⟩ (.ok ()) (.ok 5)
        (fun _ => ⟨[⟨7, .READ, some "p", none, none, false⟩], false, "b",
          none, false⟩)
        (fun _ _ _ _ => true) (fun a b => a == b) (fun _ => .ok 0) 1 := by
  exact ((takeSnapshotAndCensus_sequence ⟨[], false, "b", none, false⟩
      ⟨7, .SAVING, none, none, none, false⟩ (.ok "p")
      ⟨[], false, "b", none, false⟩ (.ok ()) (.ok 5)
      (fun _ => ⟨[⟨7, .READ, some "p", none, none, false⟩], false, "b",
        none, false⟩)
      (fun _ _ _ _ => true) (fun a b => a == b) (fun _ => .ok 0) 1).2.2
    "p" rfl ⟨7, .READ, some "p", none, none, false⟩ (by decide)).2.mpr rfl

/-- C6: the externally visible behaviour of each action creator consists
only of remote calls and dispatched actions: replaying any trace against
a host reducer changes the store exactly by folding the reducer over the
dispatched actions (no other event touches the store), and the creators
read the store only through `getState`/`getSnapshot` — `takeSnapshot`
depends on the store only through `diffing`, and `readSnapshot` only
through `getSnapshot` at its id. -/
theorem effects_only_rpc_and_dispatch :
    (∀ (reduce : StoreState → MemAction → StoreState) (g s : StoreState)
       (fresh : Snapshot) (save : Except HeapError Path),
      applyEvents reduce g (takeSnapshotRun s fresh save).1 =
        (dispatched (takeSnapshotRun s fresh save).1).foldl reduce g) ∧
    (∀ (reduce : StoreState → MemAction → StoreState) (g s : StoreState)
       (id : Nat) (rr : Except HeapError Unit)
       (cr : Except HeapError CreationTime),
      applyEvents reduce g (readSnapshotRun s id rr cr) =
        (dispatched (readSnapshotRun s id rr cr)).foldl reduce g) ∧
    (∀ (reduce : StoreState → MemAction → StoreState) (g : StoreState)
       (cut : Bool → Filter → Breakdown → Option Census → Bool)
       (beq : Breakdown → Breakdown → Bool) (states : Nat → StoreState)
       (census : Nat → Except HeapError Report) (id fuel : Nat),
      applyEvents reduce g (takeCensusRun cut beq states census id fuel).1 =
        (dispatched
          (takeCensusRun cut beq states census id fuel).1).foldl reduce g) ∧
    (∀ (reduce : StoreState → MemAction → StoreState) (g : StoreState)
       (cut : Bool → Filter → Breakdown → Option Census → Bool)
       (beq : Breakdown → Breakdown → Bool) (states : Nat → StoreState)
       (census : Nat → Except HeapError Report) (fuel : Nat),
      applyEvents reduce g
          (refreshSelectedCensusRun cut beq states census fuel) =
        (dispatched
          (refreshSelectedCensusRun cut beq states census fuel)).foldl
            reduce g) ∧
    (∀ (reduce : StoreState → MemAction → StoreState) (g s0 : StoreState)
       (cut : Bool → Filter → Breakdown → Option Census → Bool)
       (beq : Breakdown → Breakdown → Bool) (statesR : Nat → StoreState)
       (census : Nat → Except HeapError Report) (id fuel : Nat),
      applyEvents reduce g
          (selectSnapshotAndRefreshRun s0 cut beq statesR census id fuel) =
        (dispatched
          (selectSnapshotAndRefreshRun s0 cut beq statesR census id
            fuel)).foldl reduce g) ∧
    (∀ (s s2 : StoreState) (fresh : Snapshot)
       (save : Except HeapError Path),
      s.diffing = s2.diffing →
      takeSnapshotRun s fresh save = takeSnapshotRun s2 fresh save) ∧
    (∀ (s s2 : StoreState) (id : Nat) (rr : Except HeapError Unit)
       (cr : Except HeapError CreationTime),
      getSnapshot s id = getSnapshot s2 id →
      readSnapshotRun s id rr cr = readSnapshotRun s2 id rr cr) := by
  refine ⟨fun reduce g s fresh save => applyEvents_eq_foldl reduce _ g,
    fun reduce g s id rr cr => applyEvents_eq_foldl reduce _ g,
    fun reduce g cut beq states census id fuel =>
      applyEvents_eq_foldl reduce _ g,
    fun reduce g cut beq states census fuel =>
      applyEvents_eq_foldl reduce _ g,
    fun reduce g s0 cut beq statesR census id fuel =>
      applyEvents_eq_foldl reduce _ g, ?_, ?_⟩
  · intro s s2 fresh save h
    simp [takeSnapshotRun, h]
  · intro s s2 id rr cr h
    unfold readSnapshotRun
    rw [h]

/-- Witness for C6 at concrete inputs: two stores that agree on `diffing`
but differ everywhere else produce identical `takeSnapshot` runs. -/
theorem effects_only_rpc_and_dispatch_witness :
    takeSnapshotRun ⟨[], false, "b", none, false⟩
        ⟨7, .SAVING, none, none, none, false⟩ (.ok "p") =
      takeSnapshotRun
        ⟨[⟨3, .READ, some "q", some 9, some 1, true⟩], true, "c",
          some "f", false⟩
        ⟨7, .SAVING, none, none, none, false⟩ (.ok "p") := by
  exact effects_only_rpc_and_dispatch.2.2.2.2.2.1 _ _
    ⟨7, .SAVING, none, none, none, false⟩ (.ok "p") rfl

/-- C9: when the snapshot is in `READ` or `SAVED_CENSUS` state and
`censusIsUpToDate` holds for the current inverted/filter/breakdown,
`takeCensus` dispatches nothing and calls the worker not at all (so the
state is unchanged); otherwise, whenever the run completes, the
inverted/filter/breakdown used for the final census equal the store's
current values (and every earlier iteration saw them change), the
`TAKE_CENSUS_END` action carrying those values and the final report is
the last event, and the worker was called once per iteration. -/
theorem takeCensus_idempotent_and_loop
    (cut : Bool → Filter → Breakdown → Option Census → Bool)
    (beq : Breakdown → Breakdown → Bool) (states : Nat → StoreState)
    (census : Nat → Except HeapError Report) (id fuel : Nat) :
    (∀ sn, getSnapshot (states 0) id = some sn →
      (sn.state = .READ ∨ sn.state = .SAVED_CENSUS) →
      cut (states 0).inverted (states 0).filter (states 0).breakdown
        sn.census = true →
      takeCensusRun cut beq states census id fuel = ([], .upToDate)) ∧
    (∀ (i2 : Nat) (inv : Bool) (f : Filter) (b : Breakdown) (r : Report),
      (takeCensusRun cut beq states census id fuel).2 =
        .completed i2 inv f b r →
      inv = (states i2).inverted ∧ f = (states i2).filter ∧
      b = (states i2).breakdown ∧
      (states i2).inverted = (states (i2 + 1)).inverted ∧
      (states i2).filter = (states (i2 + 1)).filter ∧
      beq (states i2).breakdown ((states (i2 + 1)).breakdown) = true ∧
      census i2 = .ok r ∧
      (∀ j, j < i2 →
        ¬((states j).inverted = (states (j + 1)).inverted ∧
          (states j).filter = (states (j + 1)).filter ∧
          beq (states j).breakdown ((states (j + 1)).breakdown) = true)) ∧
      (∃ pre, (takeCensusRun cut beq states census id fuel).1 =
        pre ++ [.dispatch (.TAKE_CENSUS_END id b inv f r)]) ∧
      ∃ sn, getSnapshot (states 0) id = some sn ∧
        cut (states 0).inverted (states 0).filter (states 0).breakdown
          sn.census = false ∧
        callsOf (takeCensusRun cut beq states census id fuel).1 =
          (List.range' 0 (i2 + 1)).map (censusCallAt states sn.path)) := by
  constructor
  · intro sn hsn hst hcut
    simp [takeCensusRun, hsn, hst, hcut]
  · intro i2 inv f b r h
    rcases hsn : getSnapshot (states 0) id with _ | sn
    · have hr : takeCensusRun cut beq states census id fuel =
          ([MemEvent.jsError], .precondFailed) := by
        simp [takeCensusRun, hsn]
      rw [hr] at h
      exact CensusOutcome.noConfusion h
    · by_cases hst : sn.state = .READ ∨ sn.state = .SAVED_CENSUS
      · by_cases hcut : cut (states 0).inverted (states 0).filter
            (states 0).breakdown sn.census = true
        · have hr : takeCensusRun cut beq states census id fuel =
              ([], .upToDate) := by
            simp [takeCensusRun, hsn, hst, hcut]
          rw [hr] at h
          exact CensusOutcome.noConfusion h
        · have hcutf : cut (states 0).inverted (states 0).filter
              (states 0).breakdown sn.census = false := by
            cases hx : cut (states 0).inverted (states 0).filter
                (states 0).breakdown sn.census
            · rfl
            · exact absurd hx hcut
          have hr : takeCensusRun cut beq states census id fuel =
              takeCensusLoop states census beq id sn.path 0 fuel := by
            simp [takeCensusRun, hsn, hst, hcut]
          rw [hr] at h ⊢
          have hs := takeCensusLoop_completed_spec states census beq id
            sn.path fuel 0 i2 inv f b r h
          refine ⟨hs.2.2.1, hs.2.2.2.1, hs.2.2.2.2.1, hs.2.2.2.2.2.1,
            hs.2.2.2.2.2.2.1, hs.2.2.2.2.2.2.2.1, hs.2.2.2.2.2.2.2.2.1,
            ?_, hs.2.2.2.2.2.2.2.2.2.2.1, ⟨sn, rfl, hcutf, ?_⟩⟩
          · intro j hj
            exact hs.2.2.2.2.2.2.2.2.2.1 j (Nat.zero_le j) hj
          · have hcalls := hs.2.2.2.2.2.2.2.2.2.2.2
            simpa using hcalls
      · have hr : takeCensusRun cut beq states census id fuel =
            ([MemEvent.jsError], .precondFailed) := by
          simp [takeCensusRun, hsn, hst]
        rw [hr] at h
        exact CensusOutcome.noConfusion h

/-- Witness for C9 at concrete inputs: with an up-to-date census the run
is a no-op, and with a stale census the run ends in a `TAKE_CENSUS_END`
carrying the current inverted/filter/breakdown and the report. -/
theorem takeCensus_idempotent_witness :
    takeCensusRun (fun _ _ _ _ => true) (fun a b => a == b)
      (fun _ => ⟨[⟨7, .READ, some "p", none, none, false⟩], false, "b",
        none, false⟩)
      (fun _ => .ok 42) 7 3 = ([], .upToDate) ∧
    (∃ pre, (takeCensusRun (fun _ _ _ _ => false) (fun a b => a == b)
        (fun _ => ⟨[⟨7, .READ, some "p", none, none, false⟩], false, "b",
          none, false⟩)
        (fun _ => .ok 42) 7 1).1 =
      pre ++ [.dispatch (.TAKE_CENSUS_END 7 "b" false none 42)]) := by
  constructor
  · exact (takeCensus_idempotent_and_loop (fun _ _ _ _ => true)
      (fun a b => a == b)
      (fun _ => ⟨[⟨7, .READ, some "p", none, none, false⟩], false, "b",
        none, false⟩)
      (fun _ => .ok 42) 7 3).1
      ⟨7, .READ, some "p", none, none, false⟩ (by decide) (Or.inl rfl) rfl
  · exact ((takeCensus_idempotent_and_loop (fun _ _ _ _ => false)
      (fun a b => a == b)
      (fun _ => ⟨[⟨7, .READ, some "p", none, none, false⟩], false, "b",
        none, false⟩)
      (fun _ => .ok 42) 7 1).2 0 false none "b" 42
      (by decide)).2.2.2.2.2.2.2.2.1

end Memory
end DevToolsWeb
